import Mathlib

/-!
# LocalhostShareFiles: share registry, HTTP routes and preview renderer

A shallow embedding of `src/main.js`.  The module-level object `sharedFiles`
becomes an explicit `Registry` value that every handler receives and (for the
two mutating handlers) returns.  Everything the handlers obtain from Node or
from npm packages (`fs`, `path`, `os`, `mime-types`, `uuid`) is a parameter:
the record `Env` for the file system, the MIME table, `path.basename` and the
interface table, and an explicit argument for the identifier that `uuidv4()`
hands out.
-/

namespace LocalhostShare

/-! ## JavaScript values and strings -/

/-- The JavaScript values a handler can meet in `req.body.filepath` (a JSON
value, or `undefined` when the field is missing) or as the result of the
property read `sharedFiles[shareId]`.  `object` stands for every value of type
object or function (JSON arrays and objects, `Object.prototype` and its
methods). -/
inductive JSValue where
  | undefined
  | null
  | bool (b : Bool)
  | number (n : Int)
  | string (s : String)
  | object
  deriving DecidableEq, Repr

/-- JavaScript `ToBoolean`: what `!v` negates. -/
def JSValue.truthy : JSValue → Bool
  | .undefined => false
  | .null => false
  | .bool b => b
  | .number n => n != 0
  | .string s => s != ""
  | .object => true

/-- The method `String.prototype.startsWith`. -/
def startsWith (s pre : String) : Bool :=
  pre.data.isPrefixOf s.data

/-! ## Environment -/

/-- One address record of `os.networkInterfaces()`. -/
structure NetworkInterfaceInfo where
  family : String
  internal : Bool
  address : String
  deriving DecidableEq, Repr

/-- What the handlers read from outside the program.  `existsSync` is
`fs.existsSync` on string paths, `readFileSync` is `fs.readFileSync(_, 'utf-8')`
(`none` when it throws), `mimeLookup` is `mime.lookup` (`none` for its result
`false`), `basename` is `path.basename`, and `networkInterfaces` lists the
interface names in `Object.keys` order, each with its address records. -/
structure Env where
  existsSync : String → Bool
  readFileSync : String → Option String
  mimeLookup : String → Option String
  basename : String → String
  networkInterfaces : List (String × List NetworkInterfaceInfo)

/-- The call `fs.existsSync(v)` for an arbitrary value: Node validates the argument and
answers `false` for everything that is not a path (only strings are paths
among `JSValue`s). -/
def Env.existsSyncValue (env : Env) : JSValue → Bool
  | .string s => env.existsSync s
  | _ => false

/-! ## getLocalIP -/

/-- The inner `for (const net of nets[name])` loop of `getLocalIP`: the first
record with `family === 'IPv4' && !internal` assigns `ipAddress` and breaks. -/
def getLocalIP.inner (ipAddress : String) : List NetworkInterfaceInfo → String
  | [] => ipAddress
  | net :: rest =>
    if net.family = "IPv4" && !net.internal then net.address
    else getLocalIP.inner ipAddress rest

/-- The outer `for (const name of Object.keys(nets))` loop of `getLocalIP`:
after each interface it breaks when `ipAddress !== '127.0.0.1'`. -/
def getLocalIP.outer (ipAddress : String) :
    List (String × List NetworkInterfaceInfo) → String
  | [] => ipAddress
  | (_, infos) :: rest =>
    let ipAddress := getLocalIP.inner ipAddress infos
    if ipAddress ≠ "127.0.0.1" then ipAddress
    else getLocalIP.outer ipAddress rest

/-- The function `getLocalIP()`, with the table `os.networkInterfaces()` as argument. -/
def getLocalIP (nets : List (String × List NetworkInterfaceInfo)) : String :=
  getLocalIP.outer "127.0.0.1" nets

/-! ## The registry object `sharedFiles` -/

/-- The object `sharedFiles`: its own properties in creation order.  Its
prototype is `Object.prototype`. -/
structure Registry where
  props : List (String × String)
  deriving DecidableEq, Repr

/-- The initial value, `let sharedFiles = {}`. -/
def Registry.empty : Registry := ⟨[]⟩

/-- The property names of `Object.prototype`, all of which hold a function or
an object. -/
def objectPrototypeKeys : List String :=
  ["constructor", "__defineGetter__", "__defineSetter__", "hasOwnProperty",
   "__lookupGetter__", "__lookupSetter__", "isPrototypeOf", "propertyIsEnumerable",
   "toString", "valueOf", "__proto__", "toLocaleString"]

/-- The own keys, in creation order. -/
def Registry.keys (reg : Registry) : List String :=
  reg.props.map Prod.fst

/-- Own-property test (`Object.prototype.hasOwnProperty`). -/
def Registry.hasOwn (reg : Registry) (k : String) : Bool :=
  reg.props.any (fun e => e.1 == k)

/-- The value of an own property. -/
def Registry.getOwn? (reg : Registry) (k : String) : Option String :=
  (reg.props.find? (fun e => e.1 == k)).map Prod.snd

/-- The property read `sharedFiles[k]`: an own property wins, otherwise the
prototype chain answers. -/
def Registry.get (reg : Registry) (k : String) : JSValue :=
  match reg.getOwn? k with
  | some v => .string v
  | none => if k ∈ objectPrototypeKeys then .object else .undefined

/-- The assignment `sharedFiles[k] = v` for a string `v`: the inherited
`__proto__` setter ignores a string, an existing own property keeps its place,
a new one is created last. -/
def Registry.set (reg : Registry) (k v : String) : Registry :=
  if k = "__proto__" then reg
  else if reg.hasOwn k then
    ⟨reg.props.map (fun e => if e.1 = k then (k, v) else e)⟩
  else ⟨reg.props ++ [(k, v)]⟩

/-- The statement `delete sharedFiles[k]`. -/
def Registry.delete (reg : Registry) (k : String) : Registry :=
  ⟨reg.props.filter (fun e => e.1 != k)⟩

/-- Numeric value of a string of decimal digits. -/
def digitsValue (cs : List Char) : Nat :=
  cs.foldl (fun acc c => 10 * acc + (c.toNat - '0'.toNat)) 0

/-- ECMAScript array index: the canonical decimal form of an integer below
`2^32 - 1`.  Such keys are enumerated first, in numeric order. -/
def isArrayIndex (k : String) : Bool :=
  !k.data.isEmpty && k.data.all Char.isDigit &&
    (k.data.head? != some '0' || k.data.length == 1) &&
    decide (digitsValue k.data < 2 ^ 32 - 1)

/-- The order in which `for (const shareId in sharedFiles)` visits the keys
(`OrdinaryOwnPropertyKeys`): array indices ascending, then the other string
keys in creation order.  `Object.prototype` adds no enumerable key. -/
def Registry.forInKeys (reg : Registry) : List String :=
  (reg.keys.filter isArrayIndex).insertionSort
      (fun a b => digitsValue a.data ≤ digitsValue b.data)
    ++ reg.keys.filter (fun k => !isArrayIndex k)

/-! ## Responses -/

/-- One element of the `/history` array. -/
structure HistoryItem where
  shareId : String
  fileName : String
  shareUrl : String
  deriving DecidableEq, Repr

/-- What a handler passes to `res`. -/
inductive Body where
  | jsonError (error : String)
  | jsonUrl (url : String)
  | jsonHistory (history : List HistoryItem)
  | send (text : String)
  | sendFile (filepath : String)
  | download (filepath : String)
  deriving DecidableEq, Repr

/-- The status code set on `res` (200 unless `res.status` was called) and the
body call. -/
structure Response where
  status : Nat
  body : Body
  deriving DecidableEq, Repr

/-- The response `res.status(404).send('File not found')`. -/
def notFound : Response := ⟨404, .send "File not found"⟩

/-! ## Routes -/

/-- The constant `const PORT = 5000`. -/
def PORT : Nat := 5000

/-- The template `http://${localIP}:${PORT}/share/${shareId}`. -/
def shareUrl (localIP shareId : String) : String :=
  "http://" ++ localIP ++ ":" ++ toString PORT ++ "/share/" ++ shareId

/-- The route `POST /register`.  `uuidv4` is the identifier the call `uuidv4()` returns;
it is consumed only on the success path. -/
def postRegister (env : Env) (uuidv4 : String) (sharedFiles : Registry)
    (filepath : JSValue) : Response × Registry :=
  if !filepath.truthy || !env.existsSyncValue filepath then
    (⟨400, .jsonError "File does not exist"⟩, sharedFiles)
  else
    match filepath with
    | .string p =>
      let shareId := uuidv4
      let sharedFiles := sharedFiles.set shareId p
      let localIP := getLocalIP env.networkInterfaces
      (⟨200, .jsonUrl (shareUrl localIP shareId)⟩, sharedFiles)
    -- not reached: `existsSyncValue` is false on every other value
    | _ => (⟨400, .jsonError "File does not exist"⟩, sharedFiles)

/-- The route `GET /file/:shareId`. -/
def getFile (env : Env) (sharedFiles : Registry) (shareId : String) : Response :=
  let filepath := sharedFiles.get shareId
  if !filepath.truthy || !env.existsSyncValue filepath then notFound
  else
    match filepath with
    | .string p => ⟨200, .sendFile p⟩
    -- not reached
    | _ => notFound

/-- The route `GET /download/:shareId`. -/
def getDownload (env : Env) (sharedFiles : Registry) (shareId : String) : Response :=
  let filepath := sharedFiles.get shareId
  if !filepath.truthy || !env.existsSyncValue filepath then notFound
  else
    match filepath with
    | .string p => ⟨200, .download p⟩
    -- not reached
    | _ => notFound

/-- The template literal `commonCSS`. -/
def commonCSS : String :=
  "\n" ++
  "    <style>\n" ++
  "      body \x7b font-family: Arial, sans-serif; background-color: #f2f2f2; margin: 0; padding: 0; \x7d\n" ++
  "      .container \x7b text-align: center; margin: 50px auto; max-width: 800px; background-color: #fff;\n" ++
  "                   padding: 20px; box-shadow: 0 0 10px rgba(0,0,0,0.1); \x7d\n" ++
  "      .download-button \x7b display: inline-block; padding: 10px 20px; margin-top: 20px;\n" ++
  "                         background-color: #007BFF; color: #fff; text-decoration: none; border-radius: 4px;\n" ++
  "                         transition: background-color 0.3s ease; \x7d\n" ++
  "      .download-button:hover \x7b background-color: #0056b3; \x7d\n" ++
  "    </style>\n" ++
  "  "

/-- The page of the `video` branch. -/
def videoPage (filename shareId mimeType : String) : String :=
  "\n      <html>\n      <head><title>Preview: " ++ filename ++ "</title>" ++ commonCSS ++
  "</head>\n      <body>\n        <div class=\"container\">\n          <h1>Preview: " ++
  filename ++
  "</h1>\n          <video controls style=\"max-width:100%; height:auto;\">\n            <source src=\"/file/" ++
  shareId ++ "\" type=\"" ++ mimeType ++
  "\">\n            Your browser does not support the video tag.\n          </video>\n          <br>\n          <a href=\"/download/" ++
  shareId ++
  "\" class=\"download-button\">Download file</a>\n        </div>\n      </body>\n      </html>\n    "

/-- The page of the `audio` branch. -/
def audioPage (filename shareId mimeType : String) : String :=
  "\n      <html>\n      <head><title>Preview: " ++ filename ++ "</title>" ++ commonCSS ++
  "</head>\n      <body>\n        <div class=\"container\">\n          <h1>Preview: " ++
  filename ++
  "</h1>\n          <audio controls style=\"width:100%;\">\n            <source src=\"/file/" ++
  shareId ++ "\" type=\"" ++ mimeType ++
  "\">\n            Your browser does not support the audio element.\n          </audio>\n          <br>\n          <a href=\"/download/" ++
  shareId ++
  "\" class=\"download-button\">Download file</a>\n        </div>\n      </body>\n      </html>\n    "

/-- The page of the `image` branch. -/
def imagePage (filename shareId : String) : String :=
  "\n      <html>\n      <head><title>Preview: " ++ filename ++ "</title>" ++ commonCSS ++
  "</head>\n      <body>\n        <div class=\"container\">\n          <h1>Preview: " ++
  filename ++
  "</h1>\n          <img src=\"/file/" ++
  shareId ++
  "\" alt=\"Image preview\" style=\"max-width:100%; height:auto;\">\n          <br>\n          <a href=\"/download/" ++
  shareId ++
  "\" class=\"download-button\">Download file</a>\n        </div>\n      </body>\n      </html>\n    "

/-- The page of the `text` branch. -/
def textPage (filename shareId content : String) : String :=
  "\n      <html>\n      <head><title>Preview: " ++ filename ++ "</title>" ++ commonCSS ++
  "</head>\n      <body>\n        <div class=\"container\">\n          <h1>Preview: " ++
  filename ++
  "</h1>\n          <pre style=\"text-align:left; white-space: pre-wrap;\">" ++
  content ++
  "</pre>\n          <br>\n          <a href=\"/download/" ++
  shareId ++
  "\" class=\"download-button\">Download file</a>\n        </div>\n      </body>\n      </html>\n    "

/-- The page of the final `else` branch. -/
def otherPage (filename shareId : String) : String :=
  "\n      <html>\n      <head><title>" ++ filename ++ "</title>" ++ commonCSS ++
  "</head>\n      <body>\n        <div class=\"container\">\n          <h1>" ++
  filename ++
  "</h1>\n          <br>\n          <a href=\"/download/" ++
  shareId ++
  "\" class=\"download-button\">Download file</a>\n        </div>\n      </body>\n      </html>\n    "

/-- The expression `mime.lookup(filepath) || 'application/octet-stream'`. -/
def mimeTypeOf (env : Env) (filepath : String) : String :=
  match env.mimeLookup filepath with
  | some m => if m = "" then "application/octet-stream" else m
  | none => "application/octet-stream"

/-- The `try`/`catch` around `fs.readFileSync(filepath, 'utf-8')`. -/
def readContent (env : Env) (filepath : String) : String :=
  match env.readFileSync filepath with
  | some content => content
  | none => "Could not read file."

/-- The branch over `mimeType.startsWith(..)` that builds `html`. -/
def previewHtml (env : Env) (filepath shareId : String) : String :=
  let filename := env.basename filepath
  let mimeType := mimeTypeOf env filepath
  if startsWith mimeType "video" then videoPage filename shareId mimeType
  else if startsWith mimeType "audio" then audioPage filename shareId mimeType
  else if startsWith mimeType "image" then imagePage filename shareId
  else if startsWith mimeType "text" then textPage filename shareId (readContent env filepath)
  else otherPage filename shareId

/-- The route `GET /share/:shareId`. -/
def getShare (env : Env) (sharedFiles : Registry) (shareId : String) : Response :=
  let filepath := sharedFiles.get shareId
  if !filepath.truthy || !env.existsSyncValue filepath then notFound
  else
    match filepath with
    | .string p => ⟨200, .send (previewHtml env p shareId)⟩
    -- not reached
    | _ => notFound

/-- The route `GET /history`.  Every key the loop visits is an own key, so the read
`sharedFiles[shareId]` inside the loop is the stored path. -/
def getHistory (env : Env) (sharedFiles : Registry) : Response :=
  let localIP := getLocalIP env.networkInterfaces
  let history := sharedFiles.forInKeys.filterMap fun shareId =>
    (sharedFiles.getOwn? shareId).map fun filepath =>
      { shareId := shareId, fileName := env.basename filepath,
        shareUrl := shareUrl localIP shareId : HistoryItem }
  ⟨200, .jsonHistory history⟩

/-- The `delete-share` IPC handler.  The call `sharedFiles.hasOwnProperty(..)`
needs the inherited method, which an own property of that name would shadow
with a string (a `TypeError`). -/
def deleteShare (sharedFiles : Registry) (shareId : String) :
    Except String (Bool × Registry) :=
  match sharedFiles.get "hasOwnProperty" with
  | .object =>
    let sharedFiles :=
      if sharedFiles.hasOwn shareId then sharedFiles.delete shareId else sharedFiles
    .ok (true, sharedFiles)
  | _ => .error "TypeError: sharedFiles.hasOwnProperty is not a function"

/-! ## Histories of requests -/

/-- A request that can change `sharedFiles`: a `POST /register` (with the
environment it runs in, the identifier `uuidv4()` would return, and the
`filepath` field of its body) or a `delete-share` call. -/
inductive Op where
  | register (env : Env) (uuidv4 : String) (filepath : JSValue)
  | revoke (shareId : String)

/-- The registry after one request.  A handler that throws leaves
`sharedFiles` as it was. -/
def step (sharedFiles : Registry) : Op → Registry
  | .register env uuidv4 filepath => (postRegister env uuidv4 sharedFiles filepath).2
  | .revoke shareId =>
    match deleteShare sharedFiles shareId with
    | .ok (_, sharedFiles') => sharedFiles'
    | .error _ => sharedFiles

/-- The registry after a list of requests, from a given registry. -/
def runFrom (sharedFiles : Registry) (ops : List Op) : Registry :=
  ops.foldl step sharedFiles

/-- The registry after a list of requests, from `sharedFiles = {}`. -/
def run (ops : List Op) : Registry :=
  runFrom Registry.empty ops

/-- The identifier and path of a registration that passes the guard of
`POST /register` (a non-empty string naming an existing path); `none` for a
rejected registration and for a revocation. -/
def Op.registered? : Op → Option (String × String)
  | .register env uuidv4 (.string p) =>
    if p ≠ "" ∧ env.existsSync p = true then some (uuidv4, p) else none
  | _ => none

/-- The identifiers issued by the registrations of a history, in order. -/
def issuedIds (ops : List Op) : List String :=
  ops.filterMap (fun op => op.registered?.map Prod.fst)

/-- Whether a history revokes the identifier. -/
def revokedIn (shareId : String) (ops : List Op) : Bool :=
  ops.any (fun op => match op with
    | .revoke i => i == shareId
    | .register _ _ _ => false)

/-- The registrations of a history that no later request revokes, in the
order they were performed. -/
def liveRegistrations : List Op → List (String × String)
  | [] => []
  | op :: rest =>
    match op.registered? with
    | some (shareId, p) =>
      if revokedIn shareId rest then liveRegistrations rest
      else (shareId, p) :: liveRegistrations rest
    | none => liveRegistrations rest

/-- The `/history` element of an entry. -/
def historyItem (env : Env) (e : String × String) : HistoryItem :=
  { shareId := e.1, fileName := env.basename e.2,
    shareUrl := shareUrl (getLocalIP env.networkInterfaces) e.1 }

/-! ## Identifiers -/

/-- Lower-case hexadecimal digit. -/
def isHexDigit (c : Char) : Bool :=
  c.isDigit || c ∈ ['a', 'b', 'c', 'd', 'e', 'f']

/-- The character class a version-4 UUID has at position `i`. -/
def uuidCharOk (i : Nat) (c : Char) : Bool :=
  if i = 8 ∨ i = 13 ∨ i = 18 ∨ i = 23 then c == '-'
  else if i = 14 then c == '4'
  else if i = 19 then c ∈ ['8', '9', 'a', 'b']
  else isHexDigit c

/-- The textual form of the identifiers `uuidv4()` returns:
`xxxxxxxx-xxxx-4xxx-yxxx-xxxxxxxxxxxx`. -/
def isUuidV4 (s : String) : Bool :=
  s.data.length == 36 &&
    (List.range 36).all (fun i => uuidCharOk i (s.data.getD i ' '))

/-! ## Network identity, as the specification words it -/

/-- The first address record, in iteration order over all interfaces, that is
IPv4 and not internal. -/
def firstExternalIPv4 (nets : List (String × List NetworkInterfaceInfo)) :
    Option NetworkInterfaceInfo :=
  (nets.flatMap Prod.snd).find? (fun net => net.family = "IPv4" && !net.internal)

/-! ## Sample data -/

/-- POSIX `path.basename` for a path without trailing slash. -/
def posixBasename (p : String) : String :=
  String.mk ((p.data.reverse.takeWhile (fun c => c != '/')).reverse)

/-- A machine with one wired interface and five files in `/tmp`; the file
`README` has no extension, so the MIME table has no entry for it. -/
def sampleEnv : Env where
  existsSync := fun p =>
    p ∈ ["/tmp/a.png", "/tmp/notes.txt", "/tmp/archive.bin", "/tmp/clip.mp4", "/tmp/README"]
  readFileSync := fun p => if p = "/tmp/notes.txt" then some "hello" else none
  mimeLookup := fun p =>
    if p = "/tmp/a.png" then some "image/png"
    else if p = "/tmp/notes.txt" then some "text/plain"
    else if p = "/tmp/clip.mp4" then some "video/mp4"
    else if p = "/tmp/archive.bin" then some "application/octet-stream"
    else none
  basename := posixBasename
  networkInterfaces :=
    [("lo", [⟨"IPv4", true, "127.0.0.1"⟩, ⟨"IPv6", true, "::1"⟩]),
     ("eth0", [⟨"IPv6", false, "fe80::1"⟩, ⟨"IPv4", false, "192.168.1.20"⟩])]

/-- First sample identifier, of the form `uuidv4()` returns. -/
def idS1 : String := "3b241101-e2bb-4255-8caf-4136c566a962"

/-- Second sample identifier. -/
def idS2 : String := "9f1c2d3e-4a5b-4c6d-9e8f-0a1b2c3d4e5f"

/-- Third sample identifier. -/
def idS3 : String := "0e6f7a8b-9c0d-4e1f-a2b3-c4d5e6f7a8b9"

/-- An interface table in which an address record that is not internal
carries the address `127.0.0.1`. -/
def aliasedLoopbackNets : List (String × List NetworkInterfaceInfo) :=
  [("dummy0", [⟨"IPv4", false, "127.0.0.1"⟩]),
   ("eth0", [⟨"IPv4", false, "10.0.0.2"⟩])]

/-! ## Reading a rendered page -/

/-- The page contains the given text. -/
def containsText (page text : String) : Prop :=
  text.data <:+: page.data

instance (page text : String) : Decidable (containsText page text) :=
  inferInstanceAs (Decidable (text.data <:+: page.data))

/-- Whether the pattern occurs in the character sequence. -/
def occurs (pat : List Char) : List Char → Bool
  | [] => pat.isEmpty
  | c :: cs => pat.isPrefixOf (c :: cs) || occurs pat cs

/-- The page has a start tag of the element: the text `<name` occurs in it. -/
def hasElement (page name : String) : Bool :=
  occurs ('<' :: name.data) page.data

/-- What follows the first occurrence of the pattern. -/
def afterFirst (pat : List Char) : List Char → Option (List Char)
  | [] => if pat.isEmpty then some [] else none
  | c :: cs =>
    if pat.isPrefixOf (c :: cs) then some ((c :: cs).drop pat.length)
    else afterFirst pat cs

/-- What precedes the first occurrence of the pattern. -/
def beforeFirst (pat : List Char) : List Char → Option (List Char)
  | [] => if pat.isEmpty then some [] else none
  | c :: cs =>
    if pat.isPrefixOf (c :: cs) then some []
    else (beforeFirst pat cs).map (fun r => c :: r)

/-- The content of the first `pre` element of a page, as an HTML parser
delimits it: the text between the `>` that closes the first `<pre` start tag
and the next `</pre>`. -/
def preBlockContent (page : String) : Option String :=
  ((afterFirst "<pre".data page.data).bind (afterFirst ">".data)).bind
    (fun rest => (beforeFirst "</pre>".data rest).map String.mk)

/-- No occurrence of the pattern can begin inside the literal, whatever text
follows it: no suffix of the literal starts with the pattern or is a
beginning of it. -/
def clearOf (pat : List Char) : List Char → Bool
  | [] => true
  | c :: cs => !pat.isPrefixOf (c :: cs) && !(c :: cs).isPrefixOf pat && clearOf pat cs

/-- The download link every page carries. -/
def downloadLink (shareId : String) : String :=
  "<a href=\"/download/" ++ shareId ++ "\" class=\"download-button\">Download file</a>"

/-- The embedded video viewer. -/
def videoViewer (shareId mimeType : String) : String :=
  "<video controls style=\"max-width:100%; height:auto;\">\n            <source src=\"/file/" ++
  shareId ++ "\" type=\"" ++ mimeType ++
  "\">\n            Your browser does not support the video tag.\n          </video>"

/-- The embedded audio player. -/
def audioViewer (shareId mimeType : String) : String :=
  "<audio controls style=\"width:100%;\">\n            <source src=\"/file/" ++
  shareId ++ "\" type=\"" ++ mimeType ++
  "\">\n            Your browser does not support the audio element.\n          </audio>"

/-- The embedded image. -/
def imageViewer (shareId : String) : String :=
  "<img src=\"/file/" ++ shareId ++
  "\" alt=\"Image preview\" style=\"max-width:100%; height:auto;\">"

/-- The preformatted block of the text page. -/
def preBlock (content : String) : String :=
  "<pre style=\"text-align:left; white-space: pre-wrap;\">" ++ content ++ "</pre>"

/-- The part every page shares before the viewer: title, style sheet and
heading. -/
def pageHead (title : String) : String :=
  "\n      <html>\n      <head><title>" ++ title ++ "</title>" ++ commonCSS ++
  "</head>\n      <body>\n        <div class=\"container\">\n          <h1>" ++ title ++
  "</h1>\n          "

/-- The part every page shares after the viewer: line break and download
link. -/
def pageFoot (shareId : String) : String :=
  "<br>\n          " ++ downloadLink shareId ++
  "\n        </div>\n      </body>\n      </html>\n    "

/-- A machine on which a file name and a text file carry HTML markup. -/
def markupEnv : Env where
  existsSync := fun p => p ∈ ["/tmp/<img src=x>.bin", "/tmp/page.txt"]
  readFileSync := fun p =>
    if p = "/tmp/page.txt" then some "<b>hi</b></pre><script>alert(1)</script>" else none
  mimeLookup := fun p =>
    if p = "/tmp/page.txt" then some "text/plain"
    else if p = "/tmp/<img src=x>.bin" then some "application/octet-stream"
    else none
  basename := posixBasename
  networkInterfaces := [("lo", [⟨"IPv4", true, "127.0.0.1"⟩])]

/-! ## getLocalIP -/

theorem getLocalIP_inner_eq (ip : String) (infos : List NetworkInterfaceInfo) :
    getLocalIP.inner ip infos =
      match infos.find? (fun net => net.family = "IPv4" && !net.internal) with
      | some net => net.address
      | none => ip := by
  induction infos with
  | nil => rfl
  | cons net rest ih =>
    by_cases h : (decide (net.family = "IPv4") && !net.internal) = true
    · simp [getLocalIP.inner, List.find?_cons, h]
    · have h' : (decide (net.family = "IPv4") && !net.internal) = false := by
        simpa using h
      rw [getLocalIP.inner, if_neg h, ih, List.find?_cons, h']

theorem getLocalIP_outer_eq (nets : List (String × List NetworkInterfaceInfo))
    (h : ∀ e ∈ nets, ∀ net ∈ e.2, net.family = "IPv4" → net.internal = false →
      net.address ≠ "127.0.0.1") :
    getLocalIP.outer "127.0.0.1" nets =
      match firstExternalIPv4 nets with
      | some net => net.address
      | none => "127.0.0.1" := by
  induction nets with
  | nil => rfl
  | cons e rest ih =>
    obtain ⟨name, infos⟩ := e
    have hrest := ih (fun e he => h e (List.mem_cons_of_mem _ he))
    simp only [getLocalIP.outer, getLocalIP_inner_eq, firstExternalIPv4, List.flatMap_cons,
      List.find?_append] at hrest ⊢
    cases hf : infos.find? (fun net => net.family = "IPv4" && !net.internal) with
    | none => simpa [hf] using hrest
    | some net =>
      have hmem := List.mem_of_find?_eq_some hf
      have hq := List.find?_some hf
      simp only [Bool.and_eq_true, decide_eq_true_eq, Bool.not_eq_true'] at hq
      have hne := h (name, infos) (List.mem_cons_self _ _) net hmem hq.1 hq.2
      simp [hne]

/-- C10 (as amended): on every interface table in which no IPv4 record that is
not internal carries the address `127.0.0.1`, `getLocalIP` returns the address
of the first record, in iteration order, that is IPv4 and not internal, and
`127.0.0.1` when there is none. -/
theorem getLocalIP_first_external (nets : List (String × List NetworkInterfaceInfo))
    (h : ∀ e ∈ nets, ∀ net ∈ e.2, net.family = "IPv4" → net.internal = false →
      net.address ≠ "127.0.0.1") :
    getLocalIP nets =
      match firstExternalIPv4 nets with
      | some net => net.address
      | none => "127.0.0.1" :=
  getLocalIP_outer_eq nets h

/-- C10 (counterexample): with a non-internal IPv4 record `127.0.0.1` on the
first interface and `10.0.0.2` on the second, the first IPv4 non-internal
record has address `127.0.0.1`, yet `getLocalIP` returns `10.0.0.2`. -/
theorem getLocalIP_skips_aliased_loopback :
    (firstExternalIPv4 aliasedLoopbackNets).map (fun net => net.address) = some "127.0.0.1" ∧
    getLocalIP aliasedLoopbackNets = "10.0.0.2" := by
  constructor <;> decide

/-- C10 (witness): on the sample machine the loopback record and the IPv6
record are passed over and the wired IPv4 address is returned. -/
theorem getLocalIP_first_external_witness :
    (∀ e ∈ sampleEnv.networkInterfaces, ∀ net ∈ e.2, net.family = "IPv4" →
        net.internal = false → net.address ≠ "127.0.0.1") ∧
    getLocalIP sampleEnv.networkInterfaces =
      (match firstExternalIPv4 sampleEnv.networkInterfaces with
        | some net => net.address
        | none => "127.0.0.1") ∧
    getLocalIP sampleEnv.networkInterfaces = "192.168.1.20" := by
  have h : ∀ e ∈ sampleEnv.networkInterfaces, ∀ net ∈ e.2, net.family = "IPv4" →
      net.internal = false → net.address ≠ "127.0.0.1" := by decide
  exact ⟨h, getLocalIP_first_external _ h, by decide⟩

/-! ## Identifiers: consequences of the UUID form -/

theorem isUuidV4_length {s : String} (h : isUuidV4 s = true) : s.data.length = 36 := by
  simp only [isUuidV4, Bool.and_eq_true, beq_iff_eq] at h
  exact h.1

theorem isUuidV4_char {s : String} (h : isUuidV4 s = true) {i : Nat} (hi : i < 36) :
    uuidCharOk i (s.data.getD i ' ') = true := by
  simp only [isUuidV4, Bool.and_eq_true, List.all_eq_true, List.mem_range] at h
  exact h.2 i hi

theorem uuidCharOk_ne_lt (i : Nat) : uuidCharOk i '<' = false := by
  unfold uuidCharOk
  split_ifs <;> decide

theorem uuidCharOk_nine_not_digit {c : Char} (h : uuidCharOk 8 c = true) :
    c.isDigit = false := by
  have hc : c = '-' := by simpa [uuidCharOk] using h
  subst hc
  decide

theorem isUuidV4_no_lt {s : String} (h : isUuidV4 s = true) : '<' ∉ s.data := by
  intro hmem
  obtain ⟨i, hi, hget⟩ := List.mem_iff_getElem.mp hmem
  have hlen := isUuidV4_length h
  have hok := isUuidV4_char h (i := i) (by omega)
  rw [List.getD_eq_getElem _ _ hi, hget, uuidCharOk_ne_lt] at hok
  exact Bool.false_ne_true hok

theorem isUuidV4_not_arrayIndex {s : String} (h : isUuidV4 s = true) :
    isArrayIndex s = false := by
  have hlen := isUuidV4_length h
  have h8 : (8 : Nat) < s.data.length := by omega
  have hok := isUuidV4_char h (i := 8) (by omega)
  rw [List.getD_eq_getElem _ _ h8] at hok
  have hnd := uuidCharOk_nine_not_digit hok
  have hall : s.data.all Char.isDigit = false := by
    rw [List.all_eq_false]
    exact ⟨s.data[8], List.getElem_mem _, by simp [hnd]⟩
  simp [isArrayIndex, hall]

theorem isUuidV4_ne_of_length {s t : String} (h : isUuidV4 s = true)
    (ht : t.data.length ≠ 36) : s ≠ t := by
  intro hst
  subst hst
  exact ht (isUuidV4_length h)

theorem isUuidV4_not_prototypeKey {s : String} (h : isUuidV4 s = true) :
    s ∉ objectPrototypeKeys := by
  intro hmem
  have hall : ∀ t ∈ objectPrototypeKeys, t.data.length ≠ 36 := by decide
  exact hall s hmem (isUuidV4_length h)

/-! ## The registry object -/

theorem Registry.hasOwn_iff (reg : Registry) (k : String) :
    reg.hasOwn k = true ↔ k ∈ reg.keys := by
  simp only [Registry.hasOwn, Registry.keys, List.any_eq_true, beq_iff_eq, List.mem_map]

theorem Registry.hasOwn_eq_false_iff (reg : Registry) (k : String) :
    reg.hasOwn k = false ↔ k ∉ reg.keys := by
  rw [← Registry.hasOwn_iff]
  simp

theorem Registry.getOwn?_eq_none_iff (reg : Registry) (k : String) :
    reg.getOwn? k = none ↔ k ∉ reg.keys := by
  simp only [Registry.getOwn?, Option.map_eq_none', List.find?_eq_none, beq_iff_eq,
    Registry.keys, List.mem_map, not_exists, not_and]

theorem Registry.get_of_not_key {reg : Registry} {k : String} (h : k ∉ reg.keys) :
    reg.get k = if k ∈ objectPrototypeKeys then JSValue.object else JSValue.undefined := by
  have hn := (Registry.getOwn?_eq_none_iff reg k).mpr h
  simp only [Registry.get, hn]

theorem Registry.get_ne_string_of_not_key {reg : Registry} {k : String} (h : k ∉ reg.keys) :
    reg.get k = JSValue.object ∨ reg.get k = JSValue.undefined := by
  rw [Registry.get_of_not_key h]
  by_cases hk : k ∈ objectPrototypeKeys
  · left; simp [hk]
  · right; simp [hk]

theorem Registry.keys_delete (reg : Registry) (k : String) :
    (reg.delete k).keys = reg.keys.filter (fun x => x != k) := by
  simp only [Registry.delete, Registry.keys, List.filter_map]
  rfl

theorem Registry.not_mem_keys_delete (reg : Registry) (k : String) :
    k ∉ (reg.delete k).keys := by
  simp [Registry.keys_delete]

theorem Registry.delete_of_not_key {reg : Registry} {k : String} (h : k ∉ reg.keys) :
    reg.delete k = reg := by
  obtain ⟨props⟩ := reg
  simp only [Registry.delete, Registry.mk.injEq, List.filter_eq_self, bne_iff_ne, ne_eq]
  intro e he hk
  exact h (by simpa [Registry.keys] using ⟨e.2, by rw [← hk]; exact he⟩)

theorem Registry.mem_keys_set {reg : Registry} {k v x : String}
    (h : x ∈ (reg.set k v).keys) : x ∈ reg.keys ∨ x = k := by
  unfold Registry.set at h
  split_ifs at h with h1 h2
  · exact Or.inl h
  · simp only [Registry.keys, List.map_map, List.mem_map, Function.comp_apply] at h ⊢
    obtain ⟨e, he, hx⟩ := h
    by_cases hek : e.1 = k
    · right; simpa [hek] using hx.symm
    · left; exact ⟨e, he, by simpa [hek] using hx⟩
  · simp only [Registry.keys, List.map_append, List.map_cons, List.map_nil, List.mem_append,
      List.mem_singleton] at h ⊢
    exact h

theorem Registry.set_fresh {reg : Registry} {k v : String} (hk : k ≠ "__proto__")
    (hfresh : k ∉ reg.keys) : reg.set k v = ⟨reg.props ++ [(k, v)]⟩ := by
  have hown := (Registry.hasOwn_eq_false_iff reg k).mpr hfresh
  simp [Registry.set, hk, hown]

/-! ## The handlers, case by case -/

theorem lookup_guard_of_not_key (env : Env) {reg : Registry} {k : String}
    (h : k ∉ reg.keys) :
    (!(reg.get k).truthy || !env.existsSyncValue (reg.get k)) = true := by
  rcases Registry.get_ne_string_of_not_key h with hg | hg <;>
    simp [hg, JSValue.truthy, Env.existsSyncValue]

theorem getFile_of_not_key (env : Env) {reg : Registry} {k : String} (h : k ∉ reg.keys) :
    getFile env reg k = notFound := by
  simp only [getFile, lookup_guard_of_not_key env h, if_true]

theorem getDownload_of_not_key (env : Env) {reg : Registry} {k : String}
    (h : k ∉ reg.keys) : getDownload env reg k = notFound := by
  simp only [getDownload, lookup_guard_of_not_key env h, if_true]

theorem getShare_of_not_key (env : Env) {reg : Registry} {k : String} (h : k ∉ reg.keys) :
    getShare env reg k = notFound := by
  simp only [getShare, lookup_guard_of_not_key env h, if_true]

theorem deleteShare_eq {reg : Registry} (h : "hasOwnProperty" ∉ reg.keys) (shareId : String) :
    deleteShare reg shareId =
      .ok (true, if reg.hasOwn shareId then reg.delete shareId else reg) := by
  have hg : reg.get "hasOwnProperty" = JSValue.object := by
    rw [Registry.get_of_not_key h]
    decide
  simp only [deleteShare, hg]

theorem deleteShare_eq_delete {reg : Registry} (h : "hasOwnProperty" ∉ reg.keys)
    (shareId : String) : deleteShare reg shareId = .ok (true, reg.delete shareId) := by
  rw [deleteShare_eq h]
  by_cases hown : reg.hasOwn shareId = true
  · simp [hown]
  · have hno : shareId ∉ reg.keys := by rwa [← Registry.hasOwn_iff]
    simp [hown, Registry.delete_of_not_key hno]

theorem hasOwnProperty_not_key {reg : Registry}
    (h : ∀ k ∈ reg.keys, isUuidV4 k = true) : "hasOwnProperty" ∉ reg.keys := by
  intro hmem
  exact absurd (h _ hmem) (by decide)

theorem postRegister_eq (env : Env) (u : String) (reg : Registry) (filepath : JSValue) :
    postRegister env u reg filepath =
      match (Op.register env u filepath).registered? with
      | some e =>
        (⟨200, .jsonUrl (shareUrl (getLocalIP env.networkInterfaces) e.1)⟩, reg.set e.1 e.2)
      | none => (⟨400, .jsonError "File does not exist"⟩, reg) := by
  cases filepath with
  | string p =>
    by_cases hp : p = ""
    · simp [postRegister, Op.registered?, JSValue.truthy, hp]
    · by_cases he : env.existsSync p = true
      · simp [postRegister, Op.registered?, JSValue.truthy, Env.existsSyncValue, hp, he]
      · simp [postRegister, Op.registered?, JSValue.truthy, Env.existsSyncValue, hp, he]
  | _ => simp [postRegister, Op.registered?, JSValue.truthy, Env.existsSyncValue]

/-! ## Histories: the keys of the registry are issued identifiers -/

theorem step_register_eq (reg : Registry) (env : Env) (u : String) (filepath : JSValue) :
    step reg (.register env u filepath) =
      match (Op.register env u filepath).registered? with
      | some e => reg.set e.1 e.2
      | none => reg := by
  simp only [step, postRegister_eq]
  cases (Op.register env u filepath).registered? <;> rfl

theorem step_revoke_keys {reg : Registry} {shareId x : String}
    (h : x ∈ (step reg (.revoke shareId)).keys) : x ∈ reg.keys := by
  simp only [step, deleteShare] at h
  cases hg : reg.get "hasOwnProperty" <;> simp only [hg] at h <;> try exact h
  by_cases hown : reg.hasOwn shareId = true
  · simp only [hown, if_true, Registry.keys_delete, List.mem_filter] at h
    exact h.1
  · simpa [hown] using h

theorem step_keys {reg : Registry} {op : Op} {x : String} (h : x ∈ (step reg op).keys) :
    x ∈ reg.keys ∨ op.registered?.map Prod.fst = some x := by
  cases op with
  | revoke shareId => exact Or.inl (step_revoke_keys h)
  | register env u filepath =>
    rw [step_register_eq] at h
    cases hr : (Op.register env u filepath).registered? with
    | none => left; simpa [hr] using h
    | some e =>
      simp only [hr] at h
      rcases Registry.mem_keys_set h with h1 | h1
      · exact Or.inl h1
      · right; simp [h1]

theorem mem_keys_runFrom {ops : List Op} {reg : Registry} {x : String}
    (h : x ∈ (runFrom reg ops).keys) : x ∈ reg.keys ∨ x ∈ issuedIds ops := by
  induction ops generalizing reg with
  | nil => exact Or.inl h
  | cons op rest ih =>
    have h' : x ∈ (runFrom (step reg op) rest).keys := h
    rcases ih h' with h1 | h1
    · rcases step_keys h1 with h2 | h2
      · exact Or.inl h2
      · right
        simp only [issuedIds, List.filterMap_cons, h2]
        exact List.mem_cons_self _ _
    · right
      simp only [issuedIds, List.filterMap_cons]
      cases op.registered?.map Prod.fst with
      | none => exact h1
      | some y => exact List.mem_cons_of_mem _ h1

theorem mem_keys_run {ops : List Op} {x : String} (h : x ∈ (run ops).keys) :
    x ∈ issuedIds ops := by
  rcases mem_keys_runFrom h with h1 | h1
  · simp [Registry.empty, Registry.keys] at h1
  · exact h1

theorem keys_run_uuid {ops : List Op} (h : ∀ id ∈ issuedIds ops, isUuidV4 id = true) :
    ∀ k ∈ (run ops).keys, isUuidV4 k = true :=
  fun k hk => h k (mem_keys_run hk)

/-! ## Revocation -/

/-- C1 (as amended): on every registry whose keys are identifiers of the UUID
form and for every `shareId`, the `delete-share` handler returns `true` without
error, whether or not `shareId` was registered; afterwards `shareId` is not
registered, a registry that did not hold it is unchanged, and a second call
with the same id returns `true` again and changes nothing. -/
theorem deleteShare_always_true (reg : Registry) (shareId : String)
    (h : ∀ k ∈ reg.keys, isUuidV4 k = true) :
    ∃ reg', deleteShare reg shareId = .ok (true, reg') ∧
      reg'.hasOwn shareId = false ∧
      (reg.hasOwn shareId = false → reg' = reg) ∧
      deleteShare reg' shareId = .ok (true, reg') := by
  have hp := hasOwnProperty_not_key h
  have hp' : "hasOwnProperty" ∉ (reg.delete shareId).keys := by
    intro hmem
    rw [Registry.keys_delete] at hmem
    exact hp (List.mem_filter.mp hmem).1
  refine ⟨reg.delete shareId, deleteShare_eq_delete hp shareId, ?_, ?_, ?_⟩
  · rw [Registry.hasOwn_eq_false_iff]
    exact Registry.not_mem_keys_delete reg shareId
  · intro hown
    exact Registry.delete_of_not_key ((Registry.hasOwn_eq_false_iff reg shareId).mp hown)
  · rw [deleteShare_eq_delete hp' shareId,
      Registry.delete_of_not_key (Registry.not_mem_keys_delete reg shareId)]

/-- C1 (witness): revoking the only entry of a registry returns `true` and
empties it. -/
theorem deleteShare_always_true_witness :
    (∀ k ∈ (Registry.mk [(idS1, "/tmp/a.png")]).keys, isUuidV4 k = true) ∧
    ∃ reg', deleteShare ⟨[(idS1, "/tmp/a.png")]⟩ idS1 = .ok (true, reg') ∧
      reg'.hasOwn idS1 = false ∧
      ((Registry.mk [(idS1, "/tmp/a.png")]).hasOwn idS1 = false →
        reg' = ⟨[(idS1, "/tmp/a.png")]⟩) ∧
      deleteShare reg' idS1 = .ok (true, reg') :=
  ⟨by decide, deleteShare_always_true ⟨[(idS1, "/tmp/a.png")]⟩ idS1 (by decide)⟩

/-- C1 (counterexample): revoking an id that is not registered returns `true`,
not `false`, and so does the second of two consecutive revocations of a
registered id. -/
theorem deleteShare_true_when_absent :
    Registry.empty.hasOwn idS1 = false ∧
    deleteShare Registry.empty idS1 = .ok (true, Registry.empty) ∧
    (Registry.mk [(idS1, "/tmp/a.png")]).hasOwn idS1 = true ∧
    deleteShare ⟨[(idS1, "/tmp/a.png")]⟩ idS1 = .ok (true, Registry.empty) ∧
    deleteShare Registry.empty idS1 ≠ .ok (false, Registry.empty) := by
  have h' : deleteShare Registry.empty idS1 = .ok (true, Registry.empty) := by rfl
  refine ⟨by decide, h', by decide, by rfl, ?_⟩
  intro h
  rw [h'] at h
  injection h with h
  injection h with h
  exact Bool.noConfusion h

/-- C5: on every registry whose keys are identifiers of the UUID form and for
every `shareId`, the `delete-share` handler completes, and afterwards each of
`GET /file`, `GET /download` and `GET /share` for that id answers
`404 File not found`, whatever the file system holds. -/
theorem revoked_id_not_found (reg : Registry) (shareId : String) (env : Env)
    (h : ∀ k ∈ reg.keys, isUuidV4 k = true) :
    ∃ removed reg', deleteShare reg shareId = .ok (removed, reg') ∧
      getFile env reg' shareId = notFound ∧
      getDownload env reg' shareId = notFound ∧
      getShare env reg' shareId = notFound := by
  have hno := Registry.not_mem_keys_delete reg shareId
  exact ⟨true, reg.delete shareId, deleteShare_eq_delete (hasOwnProperty_not_key h) shareId,
    getFile_of_not_key env hno, getDownload_of_not_key env hno, getShare_of_not_key env hno⟩

/-- C5 (witness): after revoking the share of `/tmp/a.png`, which still exists
on the sample machine, all three routes answer 404 for its id. -/
theorem revoked_id_not_found_witness :
    (∀ k ∈ (Registry.mk [(idS1, "/tmp/a.png")]).keys, isUuidV4 k = true) ∧
    sampleEnv.existsSync "/tmp/a.png" = true ∧
    ∃ removed reg', deleteShare ⟨[(idS1, "/tmp/a.png")]⟩ idS1 = .ok (removed, reg') ∧
      getFile sampleEnv reg' idS1 = notFound ∧
      getDownload sampleEnv reg' idS1 = notFound ∧
      getShare sampleEnv reg' idS1 = notFound :=
  ⟨by decide, by decide,
    revoked_id_not_found ⟨[(idS1, "/tmp/a.png")]⟩ idS1 sampleEnv (by decide)⟩

/-! ## Registration that is rejected -/

/-- C3: for every registry and every register request whose `filepath` is
missing, empty, or does not name an existing file, `POST /register` answers
with status 400, `sharedFiles` afterwards is the registry before, and so
`GET /history` answers as before. -/
theorem postRegister_rejects_without_mutation (env : Env) (uuidv4 : String) (reg : Registry)
    (filepath : JSValue)
    (h : filepath = .undefined ∨ filepath = .string "" ∨
      env.existsSyncValue filepath = false) :
    (postRegister env uuidv4 reg filepath).1 = ⟨400, .jsonError "File does not exist"⟩ ∧
    (postRegister env uuidv4 reg filepath).2 = reg ∧
    ∀ env', getHistory env' (postRegister env uuidv4 reg filepath).2 = getHistory env' reg := by
  have hg : (!filepath.truthy || !env.existsSyncValue filepath) = true := by
    rcases h with h | h | h
    · subst h; rfl
    · subst h; rfl
    · simp [h]
  have hr : postRegister env uuidv4 reg filepath =
      (⟨400, .jsonError "File does not exist"⟩, reg) := by
    simp only [postRegister, hg, if_true]
  rw [hr]
  exact ⟨rfl, rfl, fun _ => rfl⟩

/-- C3 (witness): registering `/tmp/missing.txt`, which does not exist on the
sample machine, is rejected and leaves a one-entry registry as it was. -/
theorem postRegister_rejects_without_mutation_witness :
    (JSValue.string "/tmp/missing.txt" = .undefined ∨
      JSValue.string "/tmp/missing.txt" = .string "" ∨
      sampleEnv.existsSyncValue (.string "/tmp/missing.txt") = false) ∧
    (postRegister sampleEnv idS2 ⟨[(idS1, "/tmp/a.png")]⟩ (.string "/tmp/missing.txt")).1 =
      ⟨400, .jsonError "File does not exist"⟩ ∧
    (postRegister sampleEnv idS2 ⟨[(idS1, "/tmp/a.png")]⟩ (.string "/tmp/missing.txt")).2 =
      ⟨[(idS1, "/tmp/a.png")]⟩ ∧
    ∀ env', getHistory env'
        (postRegister sampleEnv idS2 ⟨[(idS1, "/tmp/a.png")]⟩ (.string "/tmp/missing.txt")).2 =
      getHistory env' ⟨[(idS1, "/tmp/a.png")]⟩ :=
  ⟨Or.inr (Or.inr (by decide)),
    postRegister_rejects_without_mutation sampleEnv idS2 ⟨[(idS1, "/tmp/a.png")]⟩
      (.string "/tmp/missing.txt") (Or.inr (Or.inr (by decide)))⟩

/-! ## Identifiers that were never issued -/

/-- C4: after every history of register and revoke requests, and for every
`shareId` that no registration of the history issued, each of `GET /file`,
`GET /download` and `GET /share` answers `404 File not found` (no file is
sent and no page is rendered), whatever the file system holds. -/
theorem unissued_id_not_found (ops : List Op) (env : Env) (shareId : String)
    (h : shareId ∉ issuedIds ops) :
    getFile env (run ops) shareId = notFound ∧
    getDownload env (run ops) shareId = notFound ∧
    getShare env (run ops) shareId = notFound := by
  have hno : shareId ∉ (run ops).keys := fun hk => h (mem_keys_run hk)
  exact ⟨getFile_of_not_key env hno, getDownload_of_not_key env hno,
    getShare_of_not_key env hno⟩

/-- C4 (witness): with one share registered, the inherited property names
`constructor` and `__proto__` are answered with 404 on all three routes. -/
theorem unissued_id_not_found_witness :
    "constructor" ∉ issuedIds [.register sampleEnv idS1 (.string "/tmp/a.png")] ∧
    (getFile sampleEnv (run [.register sampleEnv idS1 (.string "/tmp/a.png")]) "constructor" =
      notFound ∧
    getDownload sampleEnv (run [.register sampleEnv idS1 (.string "/tmp/a.png")])
      "constructor" = notFound ∧
    getShare sampleEnv (run [.register sampleEnv idS1 (.string "/tmp/a.png")]) "constructor" =
      notFound) ∧
    "__proto__" ∉ issuedIds [.register sampleEnv idS1 (.string "/tmp/a.png")] ∧
    (getFile sampleEnv (run [.register sampleEnv idS1 (.string "/tmp/a.png")]) "__proto__" =
      notFound ∧
    getDownload sampleEnv (run [.register sampleEnv idS1 (.string "/tmp/a.png")])
      "__proto__" = notFound ∧
    getShare sampleEnv (run [.register sampleEnv idS1 (.string "/tmp/a.png")]) "__proto__" =
      notFound) :=
  ⟨by decide,
    unissued_id_not_found [.register sampleEnv idS1 (.string "/tmp/a.png")] sampleEnv
      "constructor" (by decide),
    by decide,
    unissued_id_not_found [.register sampleEnv idS1 (.string "/tmp/a.png")] sampleEnv
      "__proto__" (by decide)⟩

/-! ## Registration that succeeds -/

theorem shareUrl_eq (localIP shareId : String) :
    shareUrl localIP shareId = "http://" ++ localIP ++ ":5000/share/" ++ shareId := by
  have h : toString PORT = "5000" := by decide
  simp only [shareUrl, h, String.append_assoc]
  rfl

theorem Registry.getOwn?_append_fresh {props : List (String × String)} {k v : String}
    (hfresh : k ∉ (Registry.mk props).keys) :
    (Registry.mk (props ++ [(k, v)])).getOwn? k = some v := by
  have hn := (Registry.getOwn?_eq_none_iff ⟨props⟩ k).mpr hfresh
  simp only [Registry.getOwn?, Option.map_eq_none'] at hn
  simp [Registry.getOwn?, List.find?_append, hn]

theorem Registry.getOwn?_append_other {props : List (String × String)} {k v x : String}
    (hx : x ≠ k) :
    (Registry.mk (props ++ [(k, v)])).getOwn? x = (Registry.mk props).getOwn? x := by
  have hk : (k == x) = false := by simpa using fun h => hx h.symm
  cases hf : props.find? (fun e => e.1 == x) <;>
    simp [Registry.getOwn?, List.find?_append, hf, List.find?_cons, hk]

theorem getShare_of_get {env : Env} {reg : Registry} {shareId p : String}
    (hget : reg.get shareId = .string p) (hp : p ≠ "") (hex : env.existsSync p = true) :
    getShare env reg shareId = ⟨200, .send (previewHtml env p shareId)⟩ := by
  simp [getShare, hget, JSValue.truthy, Env.existsSyncValue, hp, hex]

theorem Registry.forInKeys_of_uuid {reg : Registry} (h : ∀ k ∈ reg.keys, isUuidV4 k = true) :
    reg.forInKeys = reg.keys := by
  have h1 : reg.keys.filter isArrayIndex = [] := by
    rw [List.filter_eq_nil_iff]
    intro k hk
    simp [isUuidV4_not_arrayIndex (h k hk)]
  have h2 : reg.keys.filter (fun k => !isArrayIndex k) = reg.keys := by
    rw [List.filter_eq_self]
    intro k hk
    simp [isUuidV4_not_arrayIndex (h k hk)]
  simp [Registry.forInKeys, h1, h2]

theorem Registry.getOwn?_of_mem {props : List (String × String)}
    (hnd : (props.map Prod.fst).Nodup) {e : String × String} (he : e ∈ props) :
    (Registry.mk props).getOwn? e.1 = some e.2 := by
  induction props with
  | nil => simp at he
  | cons a rest ih =>
    rw [List.map_cons, List.nodup_cons] at hnd
    rcases List.mem_cons.mp he with h | h
    · subst h
      simp [Registry.getOwn?, List.find?_cons]
    · have hne : (a.1 == e.1) = false := by
        simp only [beq_eq_false_iff_ne, ne_eq]
        intro hae
        exact hnd.1 (hae ▸ List.mem_map_of_mem Prod.fst h)
      have := ih hnd.2 h
      simpa [Registry.getOwn?, List.find?_cons, hne] using this

theorem getHistory_eq (env : Env) {reg : Registry} (h : ∀ k ∈ reg.keys, isUuidV4 k = true)
    (hnd : reg.keys.Nodup) :
    getHistory env reg = ⟨200, .jsonHistory (reg.props.map (historyItem env))⟩ := by
  simp only [getHistory, Registry.forInKeys_of_uuid h, Registry.keys, List.filterMap_map]
  congr 2
  rw [← List.filterMap_eq_map]
  apply List.filterMap_congr
  intro e he
  have hown := @Registry.getOwn?_of_mem reg.props hnd e he
  simp only [Function.comp_apply, hown, Option.map_some', historyItem]

theorem revokedIn_cons_register (x : String) (env : Env) (u : String) (fp : JSValue)
    (rest : List Op) : revokedIn x (.register env u fp :: rest) = revokedIn x rest := by
  simp [revokedIn]

theorem revokedIn_cons_revoke (x i : String) (rest : List Op) :
    revokedIn x (.revoke i :: rest) = (i == x || revokedIn x rest) := by
  simp [revokedIn]

theorem step_revoke_eq {reg : Registry} (h : ∀ k ∈ reg.keys, isUuidV4 k = true)
    (shareId : String) : step reg (.revoke shareId) = reg.delete shareId := by
  simp only [step, deleteShare_eq_delete (hasOwnProperty_not_key h)]

theorem issuedIds_cons (op : Op) (rest : List Op) :
    issuedIds (op :: rest) =
      match op.registered? with
      | some e => e.1 :: issuedIds rest
      | none => issuedIds rest := by
  simp only [issuedIds, List.filterMap_cons]
  cases op.registered? <;> rfl

theorem liveRegistrations_cons (op : Op) (rest : List Op) :
    liveRegistrations (op :: rest) =
      match op.registered? with
      | some e => if revokedIn e.1 rest then liveRegistrations rest
                  else e :: liveRegistrations rest
      | none => liveRegistrations rest := by
  rw [liveRegistrations]
  cases op.registered? <;> rfl

theorem runFrom_props (ops : List Op) :
    ∀ reg : Registry, (∀ k ∈ reg.keys, isUuidV4 k = true) →
      (∀ id ∈ issuedIds ops, isUuidV4 id = true) → (issuedIds ops).Nodup →
      (∀ id ∈ issuedIds ops, id ∉ reg.keys) →
      (runFrom reg ops).props =
        reg.props.filter (fun e => !revokedIn e.1 ops) ++ liveRegistrations ops := by
  induction ops with
  | nil =>
    intro reg _ _ _ _
    simp [runFrom, revokedIn, liveRegistrations]
  | cons op rest ih =>
    intro reg hk hu hnd hdisj
    have hrun : runFrom reg (op :: rest) = runFrom (step reg op) rest := rfl
    rw [hrun]
    cases op with
    | revoke i =>
      rw [issuedIds_cons] at hu hnd hdisj
      simp only [Op.registered?] at hu hnd hdisj
      have hk' : ∀ k ∈ (reg.delete i).keys, isUuidV4 k = true := by
        intro k hmem
        rw [Registry.keys_delete] at hmem
        exact hk k (List.mem_filter.mp hmem).1
      have hdisj' : ∀ id ∈ issuedIds rest, id ∉ (reg.delete i).keys := by
        intro id hid hmem
        rw [Registry.keys_delete] at hmem
        exact hdisj id hid (List.mem_filter.mp hmem).1
      rw [step_revoke_eq hk, ih _ hk' hu hnd hdisj', liveRegistrations_cons]
      simp only [Op.registered?, Registry.delete, List.filter_filter]
      congr 1
      apply List.filter_congr
      intro e _
      rw [revokedIn_cons_revoke]
      by_cases hie : i = e.1
      · simp [hie]
      · have h1 : (i == e.1) = false := by simpa using hie
        have h2 : (e.1 != i) = true := by simpa using fun h => hie h.symm
        simp [h1, h2]
    | register env u fp =>
      rw [step_register_eq, liveRegistrations_cons]
      rw [issuedIds_cons] at hu hnd hdisj
      have hrev : ∀ x, revokedIn x (.register env u fp :: rest) = revokedIn x rest :=
        fun x => revokedIn_cons_register x env u fp rest
      cases hr : (Op.register env u fp).registered? with
      | none =>
        simp only [hr] at hu hnd hdisj ⊢
        rw [ih _ hk hu hnd hdisj]
        simp only [hrev]
      | some e =>
        simp only [hr] at hu hnd hdisj ⊢
        rw [List.nodup_cons] at hnd
        have he_uuid : isUuidV4 e.1 = true := hu e.1 (List.mem_cons_self _ _)
        have he_fresh : e.1 ∉ reg.keys := hdisj e.1 (List.mem_cons_self _ _)
        have hproto : e.1 ≠ "__proto__" := isUuidV4_ne_of_length he_uuid (by decide)
        rw [Registry.set_fresh hproto he_fresh]
        have hk' : ∀ k ∈ (Registry.mk (reg.props ++ [(e.1, e.2)])).keys,
            isUuidV4 k = true := by
          intro k hmem
          simp only [Registry.keys, List.map_append, List.map_cons, List.map_nil,
            List.mem_append, List.mem_singleton] at hmem
          rcases hmem with h1 | h1
          · exact hk k h1
          · rw [h1]; exact he_uuid
        have hdisj' : ∀ id ∈ issuedIds rest,
            id ∉ (Registry.mk (reg.props ++ [(e.1, e.2)])).keys := by
          intro id hid hmem
          simp only [Registry.keys, List.map_append, List.map_cons, List.map_nil,
            List.mem_append, List.mem_singleton] at hmem
          rcases hmem with h1 | h1
          · exact hdisj id (List.mem_cons_of_mem _ hid) h1
          · exact hnd.1 (h1 ▸ hid)
        rw [ih _ hk' (fun id hid => hu id (List.mem_cons_of_mem _ hid)) hnd.2 hdisj']
        simp only [hrev, List.filter_append, List.append_assoc]
        congr 1
        by_cases hre : revokedIn e.1 rest = true
        · simp [hre]
        · simp [hre]

theorem liveRegistrations_keys_sublist (ops : List Op) :
    ((liveRegistrations ops).map Prod.fst).Sublist (issuedIds ops) := by
  induction ops with
  | nil => simp [liveRegistrations, issuedIds]
  | cons op rest ih =>
    rw [liveRegistrations_cons, issuedIds_cons]
    cases op.registered? with
    | none => exact ih
    | some e =>
      by_cases hre : revokedIn e.1 rest = true
      · simpa [hre] using ih.cons e.1
      · simpa [hre] using ih.cons₂ e.1

theorem run_props {ops : List Op} (hu : ∀ id ∈ issuedIds ops, isUuidV4 id = true)
    (hnd : (issuedIds ops).Nodup) : (run ops).props = liveRegistrations ops := by
  have h := runFrom_props ops Registry.empty (by simp [Registry.empty, Registry.keys]) hu hnd
    (by simp [Registry.empty, Registry.keys])
  simpa [run, Registry.empty] using h

set_option maxRecDepth 100000

theorem isPrefixOf_append_clear {pat lit : List Char} (rest : List Char)
    (h1 : pat.isPrefixOf lit = false) (h2 : lit.isPrefixOf pat = false) :
    pat.isPrefixOf (lit ++ rest) = false := by
  rw [Bool.eq_false_iff]
  intro h
  rw [List.isPrefixOf_iff_prefix] at h
  rcases List.prefix_or_prefix_of_prefix h (List.prefix_append lit rest) with h3 | h3
  · rw [← List.isPrefixOf_iff_prefix, h1] at h3
    exact Bool.false_ne_true h3
  · rw [← List.isPrefixOf_iff_prefix, h2] at h3
    exact Bool.false_ne_true h3

theorem isPrefixOf_lt_cons {p : List Char} {c : Char} (rest : List Char) (hc : c ≠ '<') :
    ('<' :: p).isPrefixOf (c :: rest) = false := by
  have : ('<' == c) = false := by simpa using fun h => hc h.symm
  simp [List.isPrefixOf, this]

theorem occurs_append_clear {pat lit : List Char} (rest : List Char)
    (h : clearOf pat lit = true) : occurs pat (lit ++ rest) = occurs pat rest := by
  induction lit with
  | nil => rfl
  | cons c cs ih =>
    simp only [clearOf, Bool.and_eq_true, Bool.not_eq_true'] at h
    have hp := isPrefixOf_append_clear rest h.1.1 h.1.2
    rw [List.cons_append] at hp ⊢
    rw [occurs, hp, Bool.false_or, ih h.2]

theorem occurs_of_clear {pat lit : List Char} (hne : pat ≠ [])
    (h : clearOf pat lit = true) : occurs pat lit = false := by
  have := occurs_append_clear [] h
  rw [List.append_nil] at this
  rw [this]
  cases pat with
  | nil => exact absurd rfl hne
  | cons a as => rfl

theorem occurs_append_var {p v : List Char} (rest : List Char) (h : '<' ∉ v) :
    occurs ('<' :: p) (v ++ rest) = occurs ('<' :: p) rest := by
  induction v with
  | nil => rfl
  | cons c cs ih =>
    rw [List.mem_cons, not_or] at h
    rw [List.cons_append, occurs, isPrefixOf_lt_cons _ (fun hc => h.1 hc.symm), Bool.false_or,
      ih h.2]

theorem otherPage_no_element (filename shareId tag : String)
    (ht : tag ∈ ["video", "audio", "img", "pre"])
    (hf : '<' ∉ filename.data) (hs : '<' ∉ shareId.data) :
    hasElement (otherPage filename shareId) tag = false := by
  simp only [List.mem_cons, List.mem_singleton, List.not_mem_nil, or_false] at ht
  rcases ht with rfl | rfl | rfl | rfl <;>
  · simp only [hasElement, otherPage, String.data_append, List.append_assoc]
    rw [occurs_append_clear _ (by decide), occurs_append_var _ hf,
      occurs_append_clear _ (by decide), occurs_append_clear _ (by decide),
      occurs_append_clear _ (by decide), occurs_append_var _ hf,
      occurs_append_clear _ (by decide), occurs_append_var _ hs]
    exact occurs_of_clear (by decide) (by decide)

theorem afterFirst_append_clear {pat lit : List Char} (rest : List Char)
    (h : clearOf pat lit = true) : afterFirst pat (lit ++ rest) = afterFirst pat rest := by
  induction lit with
  | nil => rfl
  | cons c cs ih =>
    simp only [clearOf, Bool.and_eq_true, Bool.not_eq_true'] at h
    have hp := isPrefixOf_append_clear rest h.1.1 h.1.2
    rw [List.cons_append] at hp ⊢
    rw [afterFirst, hp, ih h.2]
    simp

theorem afterFirst_append_var {p v : List Char} (rest : List Char) (h : '<' ∉ v) :
    afterFirst ('<' :: p) (v ++ rest) = afterFirst ('<' :: p) rest := by
  induction v with
  | nil => rfl
  | cons c cs ih =>
    rw [List.mem_cons, not_or] at h
    rw [List.cons_append, afterFirst, isPrefixOf_lt_cons _ (fun hc => h.1 hc.symm), ih h.2]
    simp

theorem isPrefixOf_append_self (pat rest : List Char) :
    pat.isPrefixOf (pat ++ rest) = true := by
  rw [List.isPrefixOf_iff_prefix]
  exact List.prefix_append pat rest

theorem afterFirst_here (a : Char) (as rest : List Char) :
    afterFirst (a :: as) ((a :: as) ++ rest) = some rest := by
  have h := isPrefixOf_append_self (a :: as) rest
  rw [List.cons_append] at h ⊢
  rw [afterFirst, h]
  simp

theorem beforeFirst_var_here {p v : List Char} (rest : List Char) (h : '<' ∉ v) :
    beforeFirst ('<' :: p) (v ++ (('<' :: p) ++ rest)) = some v := by
  induction v with
  | nil =>
    have h := isPrefixOf_append_self ('<' :: p) rest
    rw [List.cons_append] at h
    rw [List.nil_append, List.cons_append, beforeFirst, h]
    simp
  | cons c cs ih =>
    rw [List.mem_cons, not_or] at h
    rw [List.cons_append, beforeFirst, isPrefixOf_lt_cons _ (fun hc => h.1 hc.symm), ih h.2]
    simp

theorem containsText_of_eq (pre text post : String) {page : String}
    (h : page = pre ++ text ++ post) : containsText page text := by
  subst h
  exact ⟨pre.data, post.data, by simp only [String.data_append]⟩

/-! ## The five pages -/

theorem videoPage_eq (filename shareId mimeType : String) :
    videoPage filename shareId mimeType =
      pageHead ("Preview: " ++ filename) ++ videoViewer shareId mimeType ++
        ("\n          " ++ pageFoot shareId) := by
  simp only [videoPage, pageHead, videoViewer, pageFoot, downloadLink, String.append_assoc]
  rfl

theorem audioPage_eq (filename shareId mimeType : String) :
    audioPage filename shareId mimeType =
      pageHead ("Preview: " ++ filename) ++ audioViewer shareId mimeType ++
        ("\n          " ++ pageFoot shareId) := by
  simp only [audioPage, pageHead, audioViewer, pageFoot, downloadLink, String.append_assoc]
  rfl

theorem imagePage_eq (filename shareId : String) :
    imagePage filename shareId =
      pageHead ("Preview: " ++ filename) ++ imageViewer shareId ++
        ("\n          " ++ pageFoot shareId) := by
  simp only [imagePage, pageHead, imageViewer, pageFoot, downloadLink, String.append_assoc]
  rfl

theorem textPage_eq (filename shareId content : String) :
    textPage filename shareId content =
      pageHead ("Preview: " ++ filename) ++ preBlock content ++
        ("\n          " ++ pageFoot shareId) := by
  simp only [textPage, pageHead, preBlock, pageFoot, downloadLink, String.append_assoc]
  rfl

theorem otherPage_eq (filename shareId : String) :
    otherPage filename shareId = pageHead filename ++ pageFoot shareId := by
  simp only [otherPage, pageHead, pageFoot, downloadLink, String.append_assoc]
  rfl

theorem pageFoot_link (pre shareId : String) :
    containsText (pre ++ pageFoot shareId) (downloadLink shareId) := by
  apply containsText_of_eq (pre ++ "<br>\n          ") _
    "\n        </div>\n      </body>\n      </html>\n    "
  simp only [pageFoot, String.append_assoc]

/-! ## Dispatch on the MIME category -/

theorem startsWith_head {m pre : String} {c : Char} {t : List Char} (hpre : pre.data = c :: t)
    (h : startsWith m pre = true) : m.data.head? = some c := by
  unfold startsWith at h
  rw [hpre] at h
  cases hm : m.data with
  | nil => rw [hm] at h; simp [List.isPrefixOf] at h
  | cons a as =>
    rw [hm] at h
    simp only [List.isPrefixOf, Bool.and_eq_true, beq_iff_eq] at h
    simp [h.1]

theorem startsWith_audio_not_video {m : String} (h : startsWith m "audio" = true) :
    startsWith m "video" = false := by
  have h1 := startsWith_head (c := 'a') (t := "udio".data) rfl h
  rw [Bool.eq_false_iff]
  intro h2
  have h3 := startsWith_head (c := 'v') (t := "ideo".data) rfl h2
  rw [h1] at h3
  exact absurd h3 (by decide)

theorem startsWith_image_not_video {m : String} (h : startsWith m "image" = true) :
    startsWith m "video" = false ∧ startsWith m "audio" = false := by
  have h1 := startsWith_head (c := 'i') (t := "mage".data) rfl h
  constructor
  · rw [Bool.eq_false_iff]
    intro h2
    have h3 := startsWith_head (c := 'v') (t := "ideo".data) rfl h2
    rw [h1] at h3
    exact absurd h3 (by decide)
  · rw [Bool.eq_false_iff]
    intro h2
    have h3 := startsWith_head (c := 'a') (t := "udio".data) rfl h2
    rw [h1] at h3
    exact absurd h3 (by decide)

theorem startsWith_text_not_media {m : String} (h : startsWith m "text" = true) :
    startsWith m "video" = false ∧ startsWith m "audio" = false ∧
      startsWith m "image" = false := by
  have h1 := startsWith_head (c := 't') (t := "ext".data) rfl h
  refine ⟨?_, ?_, ?_⟩
  · rw [Bool.eq_false_iff]
    intro h2
    have h3 := startsWith_head (c := 'v') (t := "ideo".data) rfl h2
    rw [h1] at h3
    exact absurd h3 (by decide)
  · rw [Bool.eq_false_iff]
    intro h2
    have h3 := startsWith_head (c := 'a') (t := "udio".data) rfl h2
    rw [h1] at h3
    exact absurd h3 (by decide)
  · rw [Bool.eq_false_iff]
    intro h2
    have h3 := startsWith_head (c := 'i') (t := "mage".data) rfl h2
    rw [h1] at h3
    exact absurd h3 (by decide)

theorem previewHtml_video {env : Env} {p : String} (shareId : String)
    (h : startsWith (mimeTypeOf env p) "video" = true) :
    previewHtml env p shareId = videoPage (env.basename p) shareId (mimeTypeOf env p) := by
  simp only [previewHtml, h, if_true]

theorem previewHtml_audio {env : Env} {p : String} (shareId : String)
    (h : startsWith (mimeTypeOf env p) "audio" = true) :
    previewHtml env p shareId = audioPage (env.basename p) shareId (mimeTypeOf env p) := by
  simp [previewHtml, h, startsWith_audio_not_video h]

theorem previewHtml_image {env : Env} {p : String} (shareId : String)
    (h : startsWith (mimeTypeOf env p) "image" = true) :
    previewHtml env p shareId = imagePage (env.basename p) shareId := by
  simp [previewHtml, h, (startsWith_image_not_video h).1, (startsWith_image_not_video h).2]

theorem previewHtml_text {env : Env} {p : String} (shareId : String)
    (h : startsWith (mimeTypeOf env p) "text" = true) :
    previewHtml env p shareId =
      textPage (env.basename p) shareId (readContent env p) := by
  have h' := startsWith_text_not_media h
  simp [previewHtml, h, h'.1, h'.2.1, h'.2.2]

theorem previewHtml_other {env : Env} {p : String} (shareId : String)
    (hv : startsWith (mimeTypeOf env p) "video" = false)
    (ha : startsWith (mimeTypeOf env p) "audio" = false)
    (hi : startsWith (mimeTypeOf env p) "image" = false)
    (ht : startsWith (mimeTypeOf env p) "text" = false) :
    previewHtml env p shareId = otherPage (env.basename p) shareId := by
  simp [previewHtml, hv, ha, hi, ht]

theorem previewHtml_link (env : Env) (p shareId : String) :
    containsText (previewHtml env p shareId) (downloadLink shareId) := by
  unfold previewHtml
  simp only
  split_ifs
  · rw [videoPage_eq, ← String.append_assoc]; exact pageFoot_link _ _
  · rw [audioPage_eq, ← String.append_assoc]; exact pageFoot_link _ _
  · rw [imagePage_eq, ← String.append_assoc]; exact pageFoot_link _ _
  · rw [textPage_eq, ← String.append_assoc]; exact pageFoot_link _ _
  · rw [otherPage_eq]; exact pageFoot_link _ _

theorem Registry.mem_keys_of_get {reg : Registry} {k p : String}
    (h : reg.get k = .string p) : k ∈ reg.keys := by
  by_contra hk
  rcases Registry.get_ne_string_of_not_key hk with h1 | h1 <;>
    rw [h1] at h <;> exact JSValue.noConfusion h

/-! ## Preview pages with an embedded viewer -/

theorem textPage_data (filename shareId content : String) :
    (textPage filename shareId content).data =
      "\n      <html>\n      <head><title>Preview: ".data ++ (filename.data ++
      ("</title>".data ++ (commonCSS.data ++
      ("</head>\n      <body>\n        <div class=\"container\">\n          <h1>Preview: ".data ++
      (filename.data ++ ("</h1>\n          ".data ++ (('<' :: "pre".data) ++
      (" style=\"text-align:left; white-space: pre-wrap;\"".data ++ (('>' :: []) ++
      (content.data ++ (('<' :: "/pre>".data) ++
      ("\n          " ++ pageFoot shareId).data))))))))))) := by
  simp only [textPage, pageFoot, downloadLink, String.data_append, List.append_assoc]
  rfl

theorem preBlockContent_textPage (filename shareId content : String)
    (hf : '<' ∉ filename.data) (hc : '<' ∉ content.data) :
    preBlockContent (textPage filename shareId content) = some content := by
  have e1 : "<pre".data = '<' :: "pre".data := rfl
  have e2 : ">".data = '>' :: [] := rfl
  have e3 : "</pre>".data = '<' :: "/pre>".data := rfl
  rw [preBlockContent, textPage_data, e1, e2, e3]
  rw [afterFirst_append_clear _ (by decide), afterFirst_append_var _ hf,
    afterFirst_append_clear _ (by decide), afterFirst_append_clear _ (by decide),
    afterFirst_append_clear _ (by decide), afterFirst_append_var _ hf,
    afterFirst_append_clear _ (by decide), afterFirst_here, Option.some_bind,
    afterFirst_append_clear _ (by decide), afterFirst_here, Option.some_bind,
    beforeFirst_var_here _ hc]
  rfl

theorem readContent_some {env : Env} {p content : String}
    (h : env.readFileSync p = some content) : readContent env p = content := by
  simp only [readContent, h]

theorem readContent_none {env : Env} {p : String} (h : env.readFileSync p = none) :
    readContent env p = "Could not read file." := by
  simp only [readContent, h]

end LocalhostShare
